import Mathlib

/-!
Round-robin load balancer: health registry and server selection

A shallow embedding of `load_balancer.go`.

* The package-level variables `unhealthyServers`, `numHealthyServers` and
  `counter` become the fields of `State`.
* A Go `map[string]bool` is read with `m[k]` (absent keys read as `false`)
  and written with `m[k] = v` only, so it is embedded as a total function
  `String → Bool`; "absent" and "false" coincide.
* `counter` is a `uint32`: every update is taken modulo `2^32`.
  `numHealthyServers` is an `int32`: every update goes through `addInt32`.
* `int(idx)` converts a `uint32` to Go's `int`; with a 64-bit `int` the value
  is unchanged, which is what the embedding assumes.
* The `for { ... }` loop of `getServer` is unbounded; it is embedded with an
  explicit iteration budget (`fuel`), and running out of budget is a
  separate outcome.
* `log.Fatal` ends the process (`os.Exit(1)`); this is the outcome `fatal`.
* The embedding is the behaviour of one goroutine at a time. Of
  `unhealthyServersMutex` it keeps what one goroutine can do to itself: a
  goroutine that holds a read lock and calls `Lock()` waits for ever. Locks
  held by other goroutines are released in finite time and are not modelled.
-/

namespace LoadBalancer

/-- The configured backends (`var servers`, line 14). -/
def servers : List String :=
  ["http://localhost:8080", "http://localhost:8081", "http://localhost:8082"]

/-- Global mutable state of the process (lines 15, 17, 18). -/
structure State where
  unhealthyServers : String → Bool
  numHealthyServers : Int
  counter : Nat

/-- Initial values of the package-level variables: empty map,
`int32(len(servers))`, zero counter. -/
def initState : State :=
  { unhealthyServers := fun _ => false
    numHealthyServers := (servers.length : Int)
    counter := 0 }

/-- Two's-complement wrap-around of `int32` addition (`atomic.AddInt32`). -/
def addInt32 (x d : Int) : Int :=
  (x + d + 2147483648) % 4294967296 - 2147483648

/-- Wrap-around of `uint32` addition (`atomic.AddUint32`). -/
def addUint32 (x d : Nat) : Nat :=
  (x + d) % 4294967296

/-- The values an `int32` variable can hold. -/
def isInt32 (x : Int) : Prop :=
  -2147483648 ≤ x ∧ x < 2147483648

instance (x : Int) : Decidable (isInt32 x) := by
  unfold isInt32; infer_instance

/-- Map assignment `m[k] = v`. -/
def mapSet (m : String → Bool) (k : String) (v : Bool) : String → Bool :=
  fun x => if x = k then v else m x

/-- The expression `servers[int(idx)%len(servers)]` (line 44). -/
def serverAt (idx : Nat) : String :=
  have h : idx % servers.length < servers.length := Nat.mod_lt _ (by decide)
  servers[idx % servers.length]

/-- How a call of `getServer` ends. -/
inductive Outcome where
  /-- The statement `return server` (line 49). -/
  | returned (server : String)
  /-- The call `log.Fatal(msg)` (line 40): the process exits, nothing is returned. -/
  | fatal (msg : String)
  /-- The call `unhealthyServersMutex.Lock()` (line 37) never returns: the
  calling goroutine holds a read lock of the same mutex. -/
  | blocked
  /-- The iteration budget ran out while the loop was still retrying. -/
  | spinning
  deriving DecidableEq, Repr

/-- The function `getServer` (lines 35-52), with an iteration budget for the
`for` loop. `holdsRLock` says whether the calling goroutine holds a read lock
of `unhealthyServersMutex` when it calls, as the handler does at line 98.
Each iteration starts with `Lock()` (line 37), which waits until no read
lock is held and so never returns when the caller holds one itself. Then:
exit the process when `numHealthyServers == 0`; otherwise unlock, increment
`counter`, pick `servers[idx % len]`, read its flag under `RLock()` (which a
goroutine holding no write lock acquires), and return it unless it is
flagged unhealthy. Every lock taken inside one iteration is released inside
it. -/
def getServer (holdsRLock : Bool) : Nat → State → Outcome × State
  | 0, s => (Outcome.spinning, s)
  | fuel + 1, s =>
    if holdsRLock then
      (Outcome.blocked, s)
    else if s.numHealthyServers = 0 then
      (Outcome.fatal "No servers available", s)
    else
      let idx := addUint32 s.counter 1
      let s1 : State := { s with counter := idx }
      let server := serverAt idx
      let isUnhealthy := s1.unhealthyServers server
      if !isUnhealthy then
        (Outcome.returned server, s1)
      else
        getServer holdsRLock fuel s1

/-- Consecutive calls of `getServer` by one caller, each with the same
iteration budget and the same lock context. A call that does not return
(process exit, a blocked `Lock()`, or a loop that is still retrying) is the
last one. -/
def getServerCalls (holdsRLock : Bool) (fuel : Nat) : Nat → State → List Outcome
  | 0, _ => []
  | n + 1, s =>
    match getServer holdsRLock fuel s with
    | (Outcome.returned server, s1) =>
      Outcome.returned server :: getServerCalls holdsRLock fuel n s1
    | (o, _) => [o]

/-- Result of `http.Get(server)` in the health check (line 57): either an
error (with the response that may accompany it), or a response with its
status code. -/
inductive ProbeResult where
  | transportError (resp : Option Nat)
  | response (statusCode : Nat)
  deriving DecidableEq, Repr

/-- The test `err != nil || resp.StatusCode != http.StatusOK` (line 58). -/
def probeFailed : ProbeResult → Bool
  | ProbeResult.transportError _ => true
  | ProbeResult.response statusCode => statusCode != 200

/-- Lines 62-68: the unhealthy branch of the health check. -/
def markUnhealthy (server : String) (s : State) : State :=
  if !s.unhealthyServers server then
    { s with
      numHealthyServers := addInt32 s.numHealthyServers (-1)
      unhealthyServers := mapSet s.unhealthyServers server true }
  else s

/-- Lines 71-77: the healthy branch of the health check. -/
def markHealthy (server : String) (s : State) : State :=
  if s.unhealthyServers server then
    { s with
      numHealthyServers := addInt32 s.numHealthyServers 1
      unhealthyServers := mapSet s.unhealthyServers server false }
  else s

/-- One iteration of the inner loop of `runHealthCheck` (lines 57-78) for
`server`, given what `http.Get` produced. -/
def healthCheckStep (server : String) (r : ProbeResult) (s : State) : State :=
  if probeFailed r then markUnhealthy server s else markHealthy server s

/-- Number of configured backends whose unhealthy flag is false or absent. -/
def healthyCount (s : State) : Nat :=
  (servers.filter (fun b => !s.unhealthyServers b)).length

/-- Number of configured backends whose unhealthy flag is set. -/
def unhealthyCount (s : State) : Nat :=
  (servers.filter (fun b => s.unhealthyServers b)).length

/-- The registry invariant: the counter of healthy servers agrees with the flags. -/
def Consistent (s : State) : Prop :=
  s.numHealthyServers = (healthyCount s : Int)

instance (s : State) : Decidable (Consistent s) := by
  unfold Consistent; infer_instance

/-- What can happen to the shared state: one probe of the backend at a
configured position, or one call of `getServer`, in either lock context,
that runs for at most `fuel` loop iterations. -/
inductive Event where
  | probe (i : Fin servers.length) (r : ProbeResult)
  | call (holdsRLock : Bool) (fuel : Nat)

/-- State after one event. -/
def step (s : State) : Event → State
  | Event.probe i r => healthCheckStep (serverAt i.val) r s
  | Event.call holdsRLock fuel => (getServer holdsRLock fuel s).2

/-- State after a finite sequence of events. -/
def run (s : State) (es : List Event) : State :=
  es.foldl step s

/-- Result of `http.Get(server)` followed by `io.ReadAll(resp.Body)` in
`getServerResponse` (lines 21-30). -/
inductive GetResult where
  /-- Error from `http.Get` (line 22). -/
  | getError (err : String)
  /-- A response arrived but reading its body failed (line 28). -/
  | readError (statusCode : Nat) (err : String)
  /-- A response with its status code and its whole body. -/
  | ok (statusCode : Nat) (body : String)
  deriving DecidableEq, Repr

/-- The function `getServerResponse` (lines 20-33): the body as a string, or
a wrapped error. The status code of the response is not part of the result. -/
def getServerResponse (httpGet : String → GetResult) (server : String) :
    Except String String :=
  match httpGet server with
  | GetResult.getError err => Except.error ("error making GET request: " ++ err)
  | GetResult.readError _ err => Except.error ("error reading response body: " ++ err)
  | GetResult.ok _ body => Except.ok body

/-- What a handler wrote to its `http.ResponseWriter`: a status code and a
body. A call `http.Error(w, msg, code)` writes `code` and `msg` followed by
a newline. -/
structure Written where
  statusCode : Nat
  body : String
  deriving DecidableEq, Repr

/-- How one run of the catch-all handler ends. -/
inductive HandlerResult where
  /-- The handler ran to its end: what it wrote to the caller (`none` when it
  made no write at all), the lines it logged, and the state it left. -/
  | finished (written : Option Written) (logged : List String) (s : State)
  /-- Selection did not return: `getServer` exited the process, blocked at
  `Lock()`, or its loop was still retrying when the budget ran out. -/
  | notSelected (o : Outcome) (s : State)

/-- The loop `for unhealthyServers[server] { server = getServer() }`
(lines 97-99), with `k` iterations allowed and `fuel` for each call. The
loop runs between `RLock()` (line 96) and `RUnlock()` (line 100), so the
call of `getServer` in its body is made holding the read lock. -/
def reselect (fuel : Nat) : Nat → String → State → Outcome × State
  | 0, _, s => (Outcome.spinning, s)
  | k + 1, server, s =>
    if s.unhealthyServers server then
      match getServer true fuel s with
      | (Outcome.returned server1, s1) => reselect fuel k server1 s1
      | (o, s1) => (o, s1)
    else
      (Outcome.returned server, s)

/-- The catch-all handler registered in `main` (lines 93-108). `httpGet` is
the HTTP client capability, `remoteAddr` the caller's address. The first
call of `getServer` (line 95) is made holding no lock. On a forwarding error
the handler calls `http.Error(w, "Error forwarding request", 500)`; on
success it only logs the body. -/
def handler (fuel : Nat) (httpGet : String → GetResult) (remoteAddr : String)
    (s : State) : HandlerResult :=
  let log0 := "Request received from IP: " ++ remoteAddr ++ "\n"
  match getServer false fuel s with
  | (Outcome.returned server0, s0) =>
    match reselect fuel (fuel + 1) server0 s0 with
    | (Outcome.returned server, s1) =>
      let log1 := "Forwarding request to " ++ server ++ "\n"
      match getServerResponse httpGet server with
      | Except.error _ =>
        HandlerResult.finished (some ⟨500, "Error forwarding request\n"⟩) [log0, log1] s1
      | Except.ok resp =>
        HandlerResult.finished none [log0, log1, "Response from server: " ++ resp ++ "\n"] s1
    | (o, s1) => HandlerResult.notSelected o s1
  | (o, s0) => HandlerResult.notSelected o s0

/-- What the handler wrote to the caller, if it ran to its end and wrote. -/
def HandlerResult.written : HandlerResult → Option Written
  | HandlerResult.finished w _ _ => w
  | HandlerResult.notSelected _ _ => none

/-- A registry in which no backend is flagged and the healthy counter is `3`. -/
def allUp (counter : Nat) : State :=
  { unhealthyServers := fun _ => false
    numHealthyServers := 3
    counter := counter }

/-- A registry in which only the backend in slot `1` is unflagged. -/
def onlyMiddleUp (counter : Nat) : State :=
  { unhealthyServers := fun b => decide (b = serverAt 0 ∨ b = serverAt 2)
    numHealthyServers := 1
    counter := counter }

/-- Follows the specification's wording of the selection order ("strict
round robin over the fixed backend list order; unhealthy slots are
skipped"): walking the configured list cyclically, starting at position
`start`, the first backend that is not flagged unhealthy. -/
def firstHealthyFrom (unhealthy : String → Bool) (start : Nat) : Option String :=
  ((List.range servers.length).map (fun j => serverAt (start + j))).find?
    (fun b => !unhealthy b)

/-! ## Auxiliary facts about the embedding -/

theorem serverAt_zero : serverAt 0 = "http://localhost:8080" := rfl

theorem serverAt_one : serverAt 1 = "http://localhost:8081" := rfl

theorem serverAt_two : serverAt 2 = "http://localhost:8082" := rfl

theorem serverAt_mod (n : Nat) : serverAt (n % 3) = serverAt n := by
  unfold serverAt
  simp [servers]

theorem serverAt_cases (n : Nat) :
    (n % 3 = 0 ∧ serverAt n = serverAt 0) ∨ (n % 3 = 1 ∧ serverAt n = serverAt 1) ∨
      (n % 3 = 2 ∧ serverAt n = serverAt 2) := by
  have h := serverAt_mod n
  have h3 : n % 3 < 3 := Nat.mod_lt _ (by decide)
  rcases Nat.lt_or_ge (n % 3) 1 with h0 | h0
  · left
    have e : n % 3 = 0 := by omega
    exact ⟨e, by rw [← h, e]⟩
  · rcases Nat.lt_or_ge (n % 3) 2 with h1 | h1
    · right; left
      have e : n % 3 = 1 := by omega
      exact ⟨e, by rw [← h, e]⟩
    · right; right
      have e : n % 3 = 2 := by omega
      exact ⟨e, by rw [← h, e]⟩

theorem serverAt_mem (n : Nat) : serverAt n ∈ servers := by
  rcases serverAt_cases n with ⟨_, h⟩ | ⟨_, h⟩ | ⟨_, h⟩ <;> rw [h] <;> decide

theorem mem_servers_iff (b : String) :
    b ∈ servers ↔ b = serverAt 0 ∨ b = serverAt 1 ∨ b = serverAt 2 := by
  simp [servers, serverAt_zero, serverAt_one, serverAt_two]

theorem getServer_blocked (fuel : Nat) (s : State) :
    getServer true (fuel + 1) s = (Outcome.blocked, s) := by
  simp [getServer]

theorem getServer_succ (fuel : Nat) (s : State) :
    getServer false (fuel + 1) s =
      if s.numHealthyServers = 0 then (Outcome.fatal "No servers available", s)
      else if s.unhealthyServers (serverAt (addUint32 s.counter 1)) = false then
        (Outcome.returned (serverAt (addUint32 s.counter 1)),
          { s with counter := addUint32 s.counter 1 })
      else getServer false fuel { s with counter := addUint32 s.counter 1 } := by
  by_cases h0 : s.numHealthyServers = 0
  · simp [getServer, h0]
  · by_cases h1 : s.unhealthyServers (serverAt (addUint32 s.counter 1)) = false
    · simp [getServer, h0, h1]
    · simp only [Bool.not_eq_false] at h1
      simp [getServer, h0, h1]

/-- A call of `getServer` never writes the registry. -/
theorem getServer_registry (fuel : Nat) (s : State) :
    (getServer false fuel s).2.unhealthyServers = s.unhealthyServers ∧
      (getServer false fuel s).2.numHealthyServers = s.numHealthyServers := by
  induction fuel generalizing s with
  | zero => simp [getServer]
  | succ fuel ih =>
    rw [getServer_succ]
    split
    · simp
    · split
      · simp
      · exact ih _

/-- Whatever `getServer` returns is a configured backend that is not flagged. -/
theorem getServer_returned (fuel : Nat) (s : State) (b : String)
    (h : (getServer false fuel s).1 = Outcome.returned b) :
    b ∈ servers ∧ s.unhealthyServers b = false := by
  induction fuel generalizing s with
  | zero => simp [getServer] at h
  | succ fuel ih =>
    rw [getServer_succ] at h
    split at h
    · simp at h
    · split at h
      · rename_i hf
        simp only [Outcome.returned.injEq] at h
        subst h
        exact ⟨serverAt_mem _, hf⟩
      · exact ih { s with counter := addUint32 s.counter 1 } h

/-- Once a call has ended within a budget, a larger budget changes nothing. -/
theorem getServer_fuel_succ (fuel : Nat) (s : State)
    (h : (getServer false fuel s).1 ≠ Outcome.spinning) :
    getServer false (fuel + 1) s = getServer false fuel s := by
  induction fuel generalizing s with
  | zero => simp [getServer] at h
  | succ fuel ih =>
    rw [getServer_succ (fuel + 1) s, getServer_succ fuel s]
    rw [getServer_succ fuel s] at h
    by_cases h0 : s.numHealthyServers = 0
    · simp only [h0, if_true]
    · by_cases h1 : s.unhealthyServers (serverAt (addUint32 s.counter 1)) = false
      · simp only [h0, h1, if_true, if_false]
      · simp only [h0, h1, if_false] at h ⊢
        exact ih _ h

theorem getServer_fuel_le (fuel fuel1 : Nat) (s : State) (hle : fuel ≤ fuel1)
    (h : (getServer false fuel s).1 ≠ Outcome.spinning) :
    getServer false fuel1 s = getServer false fuel s := by
  induction fuel1 with
  | zero =>
    have : fuel = 0 := by omega
    subst this; rfl
  | succ k ih =>
    rcases Nat.eq_or_lt_of_le hle with e | hlt
    · rw [e]
    · have hk : getServer false k s = getServer false fuel s := ih (by omega)
      rw [getServer_fuel_succ k s (by rw [hk]; exact h), hk]

/-- A call of `getServer`, in either lock context, never writes the registry. -/
theorem getServer_registry_any (holdsRLock : Bool) (fuel : Nat) (s : State) :
    (getServer holdsRLock fuel s).2.unhealthyServers = s.unhealthyServers ∧
      (getServer holdsRLock fuel s).2.numHealthyServers = s.numHealthyServers := by
  cases holdsRLock with
  | false => exact getServer_registry fuel s
  | true =>
    cases fuel with
    | zero => simp [getServer]
    | succ fuel => rw [getServer_blocked]; simp

/-- Whatever `getServer` returns, in either lock context, is a configured
backend that is not flagged. -/
theorem getServer_returned_any (holdsRLock : Bool) (fuel : Nat) (s : State) (b : String)
    (h : (getServer holdsRLock fuel s).1 = Outcome.returned b) :
    b ∈ servers ∧ s.unhealthyServers b = false := by
  cases holdsRLock with
  | false => exact getServer_returned fuel s b h
  | true =>
    cases fuel with
    | zero => simp [getServer] at h
    | succ fuel => rw [getServer_blocked] at h; simp at h

theorem healthyCount_eq (s : State) :
    healthyCount s =
      (if s.unhealthyServers (serverAt 0) then 0 else 1) +
      (if s.unhealthyServers (serverAt 1) then 0 else 1) +
      (if s.unhealthyServers (serverAt 2) then 0 else 1) := by
  simp only [healthyCount, servers, serverAt_zero, serverAt_one, serverAt_two]
  rcases Bool.eq_false_or_eq_true (s.unhealthyServers "http://localhost:8080") with h0 | h0 <;>
    rcases Bool.eq_false_or_eq_true (s.unhealthyServers "http://localhost:8081") with h1 | h1 <;>
    rcases Bool.eq_false_or_eq_true (s.unhealthyServers "http://localhost:8082") with h2 | h2 <;>
    simp [List.filter, h0, h1, h2]

theorem unhealthyCount_eq (s : State) :
    unhealthyCount s =
      (if s.unhealthyServers (serverAt 0) then 1 else 0) +
      (if s.unhealthyServers (serverAt 1) then 1 else 0) +
      (if s.unhealthyServers (serverAt 2) then 1 else 0) := by
  simp only [unhealthyCount, servers, serverAt_zero, serverAt_one, serverAt_two]
  rcases Bool.eq_false_or_eq_true (s.unhealthyServers "http://localhost:8080") with h0 | h0 <;>
    rcases Bool.eq_false_or_eq_true (s.unhealthyServers "http://localhost:8081") with h1 | h1 <;>
    rcases Bool.eq_false_or_eq_true (s.unhealthyServers "http://localhost:8082") with h2 | h2 <;>
    simp [List.filter, h0, h1, h2]

theorem serverAt_congr (n k : Nat) (h : n % 3 = k % 3) : serverAt n = serverAt k := by
  rw [← serverAt_mod n, ← serverAt_mod k, h]

theorem serverAt_of_mod (n k : Nat) (h : n % 3 = k) : serverAt n = serverAt k := by
  rw [← serverAt_mod n, h]

theorem slots_core (m x1 x2 x3 : Nat) (h : x1 = m + 1 ∧ x2 = m + 2 ∧ x3 = m + 3) :
    (x1 % 3 = 0 ∧ x2 % 3 = 1 ∧ x3 % 3 = 2) ∨
    (x1 % 3 = 1 ∧ x2 % 3 = 2 ∧ x3 % 3 = 0) ∨
    (x1 % 3 = 2 ∧ x2 % 3 = 0 ∧ x3 % 3 = 1) := by
  omega

theorem wrap_step (c k : Nat) (hk : k < 4294967296) :
    (c % 4294967296 + k < 4294967296 ∧ (c + k) % 4294967296 = c % 4294967296 + k) ∨
    (4294967296 ≤ c % 4294967296 + k ∧ (c + k) % 4294967296 + 4294967296 = c % 4294967296 + k) := by
  omega

theorem slots_wrap (c : Nat) :
    ((c + 1) % 4294967296 = c % 4294967296 + 1 ∧ (c + 2) % 4294967296 = c % 4294967296 + 2 ∧
      (c + 3) % 4294967296 = c % 4294967296 + 3) ∨
    ((c + 1) % 4294967296 = 4294967293 ∧ (c + 2) % 4294967296 = 4294967294 ∧
      (c + 3) % 4294967296 = 4294967295 ∧ (c + 4) % 4294967296 = 0) ∨
    ((c + 1) % 4294967296 = 4294967294 ∧ (c + 2) % 4294967296 = 4294967295 ∧
      (c + 3) % 4294967296 = 0 ∧ (c + 4) % 4294967296 = 1) ∨
    ((c + 1) % 4294967296 = 4294967295 ∧ (c + 2) % 4294967296 = 0 ∧
      (c + 3) % 4294967296 = 1 ∧ (c + 4) % 4294967296 = 2) ∨
    ((c + 1) % 4294967296 = 0 ∧ (c + 2) % 4294967296 = 1 ∧
      (c + 3) % 4294967296 = 2 ∧ (c + 4) % 4294967296 = 3) := by
  have hm : c % 4294967296 < 4294967296 := Nat.mod_lt _ (by norm_num)
  have w1 := wrap_step c 1 (by norm_num)
  have w2 := wrap_step c 2 (by norm_num)
  have w3 := wrap_step c 3 (by norm_num)
  have w4 := wrap_step c 4 (by norm_num)
  generalize (c + 1) % 4294967296 = x1 at *
  generalize (c + 2) % 4294967296 = x2 at *
  generalize (c + 3) % 4294967296 = x3 at *
  generalize (c + 4) % 4294967296 = x4 at *
  generalize c % 4294967296 = m at *
  rcases w1 with ⟨b1, w1⟩ | ⟨b1, w1⟩ <;> rcases w2 with ⟨b2, w2⟩ | ⟨b2, w2⟩ <;>
    rcases w3 with ⟨b3, w3⟩ | ⟨b3, w3⟩ <;> rcases w4 with ⟨b4, w4⟩ | ⟨b4, w4⟩ <;>
    first
    | (exfalso; omega)
    | (left; omega)
    | (right; left; omega)
    | (right; right; left; omega)
    | (right; right; right; left; omega)
    | (right; right; right; right; omega)

/-- The slots inspected by up to four consecutive iterations: three
consecutive slots in cyclic order, unless the counter wraps, in which case
slot `0` is inspected twice in a row. -/
theorem slots_pattern (c : Nat) :
    (((c + 1) % 4294967296) % 3 = 0 ∧ ((c + 2) % 4294967296) % 3 = 1 ∧
      ((c + 3) % 4294967296) % 3 = 2) ∨
    (((c + 1) % 4294967296) % 3 = 1 ∧ ((c + 2) % 4294967296) % 3 = 2 ∧
      ((c + 3) % 4294967296) % 3 = 0) ∨
    (((c + 1) % 4294967296) % 3 = 2 ∧ ((c + 2) % 4294967296) % 3 = 0 ∧
      ((c + 3) % 4294967296) % 3 = 1) ∨
    (((c + 1) % 4294967296) % 3 = 0 ∧ ((c + 2) % 4294967296) % 3 = 0 ∧
      ((c + 3) % 4294967296) % 3 = 1 ∧ ((c + 4) % 4294967296) % 3 = 2) ∨
    (((c + 1) % 4294967296) % 3 = 2 ∧ ((c + 2) % 4294967296) % 3 = 0 ∧
      ((c + 3) % 4294967296) % 3 = 0 ∧ ((c + 4) % 4294967296) % 3 = 1) := by
  rcases slots_wrap c with h | ⟨h1, h2, h3, h4⟩ | ⟨h1, h2, h3, h4⟩ | ⟨h1, h2, h3, h4⟩ |
      ⟨h1, h2, h3, h4⟩
  · rcases slots_core _ _ _ _ h with g | g | g
    · exact Or.inl g
    · exact Or.inr (Or.inl g)
    · exact Or.inr (Or.inr (Or.inl g))
  · rw [h1, h2, h3, h4]; decide
  · rw [h1, h2, h3, h4]; decide
  · rw [h1, h2, h3, h4]; decide
  · rw [h1, h2, h3, h4]; decide

theorem firstHealthyFrom_eq (u : String → Bool) (start : Nat) :
    firstHealthyFrom u start =
      if u (serverAt start) = false then some (serverAt start)
      else if u (serverAt (start + 1)) = false then some (serverAt (start + 1))
      else if u (serverAt (start + 2)) = false then some (serverAt (start + 2))
      else none := by
  have hr : List.range servers.length = [0, 1, 2] := by decide
  simp only [firstHealthyFrom, hr, List.map, List.find?, Nat.add_zero]
  rcases Bool.eq_false_or_eq_true (u (serverAt start)) with h0 | h0 <;>
    rcases Bool.eq_false_or_eq_true (u (serverAt (start + 1))) with h1 | h1 <;>
    rcases Bool.eq_false_or_eq_true (u (serverAt (start + 2))) with h2 | h2 <;>
    simp [h0, h1, h2]

theorem addUint32_one (c : Nat) : addUint32 c 1 = (c + 1) % 4294967296 := rfl

theorem addUint32_succ (c k : Nat) :
    addUint32 ((c + k) % 4294967296) 1 = (c + (k + 1)) % 4294967296 := by
  unfold addUint32
  rw [← Nat.add_assoc c k 1, Nat.add_mod (c + k) 1, Nat.add_mod ((c + k) % 4294967296) 1,
    Nat.mod_mod]

theorem serverAt_shift (x k : Nat) (hk : x % 3 = k) :
    serverAt x = serverAt k ∧ serverAt (x + 1) = serverAt (k + 1) ∧
      serverAt (x + 2) = serverAt (k + 2) :=
  ⟨serverAt_congr _ _ (by omega), serverAt_congr _ _ (by omega), serverAt_congr _ _ (by omega)⟩

/-- With a nonzero healthy counter and at least one configured backend not
flagged, the loop of `getServer` ends within four iterations and returns the
first unflagged backend in cyclic order from the slot of the incremented
counter. Four, not three: when the counter wraps from `2^32 - 1` to `0` the
same slot is inspected twice in a row. -/
theorem getServer_four (s : State) (h0 : s.numHealthyServers ≠ 0)
    (hex : s.unhealthyServers (serverAt 0) = false ∨ s.unhealthyServers (serverAt 1) = false ∨
      s.unhealthyServers (serverAt 2) = false) :
    ∃ n, 1 ≤ n ∧ n ≤ 4 ∧
      (firstHealthyFrom s.unhealthyServers (addUint32 s.counter 1)).isSome = true ∧
      (getServer false n s).1 =
        (match firstHealthyFrom s.unhealthyServers (addUint32 s.counter 1) with
          | some b => Outcome.returned b
          | none => Outcome.spinning) ∧
      (getServer false n s).2 = { s with counter := (s.counter + n) % 4294967296 } := by
  have a1 := addUint32_one s.counter
  have a2 := addUint32_succ s.counter 1
  have a3 := addUint32_succ s.counter 2
  have a4 := addUint32_succ s.counter 3
  have hp := slots_pattern s.counter
  rw [firstHealthyFrom_eq, a1]
  have g1 := serverAt_shift ((s.counter + 1) % 4294967296)
  have e3 : serverAt 3 = serverAt 0 := rfl
  have e4 : serverAt 4 = serverAt 1 := rfl
  rcases Bool.eq_false_or_eq_true (s.unhealthyServers (serverAt 0)) with f0 | f0 <;>
  rcases Bool.eq_false_or_eq_true (s.unhealthyServers (serverAt 1)) with f1 | f1 <;>
  rcases Bool.eq_false_or_eq_true (s.unhealthyServers (serverAt 2)) with f2 | f2 <;>
  rcases hp with ⟨p1, p2, p3⟩ | ⟨p1, p2, p3⟩ | ⟨p1, p2, p3⟩ | ⟨p1, p2, p3, p4⟩ | ⟨p1, p2, p3, p4⟩ <;>
  first
  | (exfalso; simp [f0, f1, f2] at hex; done)
  | (obtain ⟨q0, q1, q2⟩ := g1 _ p1
     have r2 := serverAt_of_mod _ _ p2
     have r3 := serverAt_of_mod _ _ p3
     first
     | (refine ⟨1, by decide, by decide, ?_⟩
        simp [getServer_succ, getServer, h0, a1, a2, a3, a4, q0, q1, q2, r2, r3, e3, e4, f0, f1, f2]
        done)
     | (refine ⟨2, by decide, by decide, ?_⟩
        simp [getServer_succ, getServer, h0, a1, a2, a3, a4, q0, q1, q2, r2, r3, e3, e4, f0, f1, f2]
        done)
     | (refine ⟨3, by decide, by decide, ?_⟩
        simp [getServer_succ, getServer, h0, a1, a2, a3, a4, q0, q1, q2, r2, r3, e3, e4, f0, f1, f2]
        done)
     | (refine ⟨4, by decide, by decide, ?_⟩
        have r4 := serverAt_of_mod _ _ p4
        simp [getServer_succ, getServer, h0, a1, a2, a3, a4, q0, q1, q2, r2, r3, r4, e3, e4, f0, f1, f2]))

/-- The loop of `getServer` returns: with a nonzero healthy counter and some
configured backend unflagged, every budget of at least `n ≤ 4` iterations
gives the same result, the first unflagged backend in cyclic order. -/
theorem getServer_returns (s : State) (h0 : s.numHealthyServers ≠ 0)
    (hex : s.unhealthyServers (serverAt 0) = false ∨ s.unhealthyServers (serverAt 1) = false ∨
      s.unhealthyServers (serverAt 2) = false) :
    ∃ n b, 1 ≤ n ∧ n ≤ 4 ∧
      firstHealthyFrom s.unhealthyServers (addUint32 s.counter 1) = some b ∧
      ∀ fuel, n ≤ fuel →
        getServer false fuel s =
          (Outcome.returned b, { s with counter := (s.counter + n) % 4294967296 }) := by
  obtain ⟨n, h1, h4, hs, ho, hst⟩ := getServer_four s h0 hex
  obtain ⟨b, hb⟩ := Option.isSome_iff_exists.mp hs
  rw [hb] at ho
  refine ⟨n, b, h1, h4, hb, ?_⟩
  intro fuel hle
  have hne : (getServer false n s).1 ≠ Outcome.spinning := by rw [ho]; simp
  rw [getServer_fuel_le n fuel s hle hne]
  exact Prod.ext ho hst

/-- C1: in every registry state over the three configured backends with `k`
of them flagged, `k < 3`, and a healthy counter equal to `3 - k`, for every
value of the cursor: whatever `getServer` returns, in either lock context,
is a configured backend whose flag is false; and a call made holding no
lock, with a budget of four loop iterations, does return one. -/
theorem C1_getServer_never_returns_unhealthy (s : State) (k : Nat)
    (hk : unhealthyCount s = k) (hlt : k < servers.length)
    (hc : s.numHealthyServers = (servers.length : Int) - (k : Int)) :
    (∀ holdsRLock fuel b, (getServer holdsRLock fuel s).1 = Outcome.returned b →
        b ∈ servers ∧ s.unhealthyServers b = false ∧
          (getServer holdsRLock fuel s).2.unhealthyServers b = false) ∧
      (∀ fuel, 4 ≤ fuel →
        ∃ b, (getServer false fuel s).1 = Outcome.returned b ∧ b ∈ servers ∧
          s.unhealthyServers b = false) := by
  have hlen : servers.length = 3 := rfl
  rw [hlen] at hlt hc
  constructor
  · intro holdsRLock fuel b h
    have hr := getServer_returned_any holdsRLock fuel s b h
    exact ⟨hr.1, hr.2, by rw [(getServer_registry_any holdsRLock fuel s).1]; exact hr.2⟩
  · intro fuel hf
    have h0 : s.numHealthyServers ≠ 0 := by rw [hc]; omega
    have hex : s.unhealthyServers (serverAt 0) = false ∨
        s.unhealthyServers (serverAt 1) = false ∨ s.unhealthyServers (serverAt 2) = false := by
      rw [unhealthyCount_eq] at hk
      rcases Bool.eq_false_or_eq_true (s.unhealthyServers (serverAt 0)) with f0 | f0
      · rcases Bool.eq_false_or_eq_true (s.unhealthyServers (serverAt 1)) with f1 | f1
        · rcases Bool.eq_false_or_eq_true (s.unhealthyServers (serverAt 2)) with f2 | f2
          · exfalso
            simp [f0, f1, f2] at hk
            omega
          · exact Or.inr (Or.inr f2)
        · exact Or.inr (Or.inl f1)
      · exact Or.inl f0
    obtain ⟨n, b, _, h4, _, hres⟩ := getServer_returns s h0 hex
    have hg := hres fuel (by omega)
    have hb : (getServer false fuel s).1 = Outcome.returned b := by rw [hg]
    exact ⟨b, hb, getServer_returned fuel s b hb⟩

/-- Instance of C1: two of the three backends flagged, cursor at `7`. -/
theorem C1_getServer_never_returns_unhealthy_witness :
    (∀ holdsRLock fuel b,
        (getServer holdsRLock fuel (onlyMiddleUp 7)).1 = Outcome.returned b →
        b ∈ servers ∧ (onlyMiddleUp 7).unhealthyServers b = false ∧
          (getServer holdsRLock fuel (onlyMiddleUp 7)).2.unhealthyServers b = false) ∧
      (∀ fuel, 4 ≤ fuel →
        ∃ b, (getServer false fuel (onlyMiddleUp 7)).1 = Outcome.returned b ∧ b ∈ servers ∧
          (onlyMiddleUp 7).unhealthyServers b = false) :=
  C1_getServer_never_returns_unhealthy (onlyMiddleUp 7) 2 (by decide) (by decide) (by decide)

theorem serverAt_eq_iff (a b : Nat) : serverAt a = serverAt b ↔ a % 3 = b % 3 := by
  constructor
  · intro h
    rcases serverAt_cases a with ⟨ha, ea⟩ | ⟨ha, ea⟩ | ⟨ha, ea⟩ <;>
      rcases serverAt_cases b with ⟨hb, eb⟩ | ⟨hb, eb⟩ | ⟨hb, eb⟩ <;>
      first
      | (exfalso; rw [ea, eb] at h; revert h; decide)
      | (rw [ha, hb])
  · exact serverAt_congr a b

/-- With no flag set on a configured backend and a nonzero healthy counter,
one iteration suffices: the call returns the backend in the slot of the
incremented cursor. -/
theorem getServer_all_healthy (s : State) (h0 : s.numHealthyServers ≠ 0)
    (hall : ∀ b ∈ servers, s.unhealthyServers b = false) (fuel : Nat) :
    getServer false (fuel + 1) s =
      (Outcome.returned (serverAt (addUint32 s.counter 1)),
        { s with counter := addUint32 s.counter 1 }) := by
  rw [getServer_succ, if_neg h0, if_pos (hall _ (serverAt_mem _))]

theorem getServerCalls_all_healthy (fuel M : Nat) (s : State) (h0 : s.numHealthyServers ≠ 0)
    (hall : ∀ b ∈ servers, s.unhealthyServers b = false)
    (hM : s.counter + M < 4294967296) :
    getServerCalls false (fuel + 1) M s =
      (List.range M).map (fun j => Outcome.returned (serverAt (s.counter + j + 1))) := by
  induction M generalizing s with
  | zero => simp [getServerCalls]
  | succ M ih =>
    have hc : addUint32 s.counter 1 = s.counter + 1 := by
      unfold addUint32
      exact Nat.mod_eq_of_lt (by omega)
    have hstep := getServer_all_healthy s h0 hall fuel
    rw [hc] at hstep
    have hrec := ih { s with counter := s.counter + 1 } h0 hall (by simp only; omega)
    simp only [getServerCalls, hstep, hrec, List.range_succ_eq_map, List.map_cons, List.map_map]
    congr 1
    apply List.map_congr_left
    intro j _
    simp only [Function.comp, Nat.succ_eq_add_one]
    congr 2
    omega

/-- Number of calls, among the first `M` from the initial state, that land
on slot `i`. -/
theorem count_slot (i M : Nat) (hi : i < 3) :
    ((List.range M).map (fun j => Outcome.returned (serverAt (j + 1)))).count
        (Outcome.returned (serverAt i)) =
      (M + (3 - i) % 3) / 3 := by
  induction M with
  | zero => simp
  | succ M ih =>
    rw [List.range_succ, List.map_append, List.count_append, ih]
    simp only [List.map_cons, List.map_nil, List.count_cons, List.count_nil, beq_iff_eq,
      Outcome.returned.injEq, serverAt_eq_iff, Nat.zero_add]
    have h3 : i % 3 = i := Nat.mod_eq_of_lt hi
    rw [h3]
    have hi' : i = 0 ∨ i = 1 ∨ i = 2 := by omega
    rcases hi' with h | h | h <;> subst h <;> split <;> omega

/-- C3: from the initial process state (cursor `0`, no flag set, healthy
counter `3`), for every `M < 2^32`, `M` consecutive calls of `getServer`
(made holding no lock, as at line 95) return the backends of slots `1, 2, 0, 1, 2, 0, ...`: each returned backend
is the cyclic successor in `servers` of the one returned before it, and each
configured backend is returned `⌊M/3⌋` or `⌈M/3⌉` times. -/
theorem C3_round_robin_fair (M : Nat) (hM : M < 4294967296) (fuel : Nat) :
    getServerCalls false (fuel + 1) M initState =
        (List.range M).map (fun j => Outcome.returned (serverAt (j + 1))) ∧
      (∀ j, j + 1 < M → ∃ i, i < servers.length ∧
        (getServerCalls false (fuel + 1) M initState)[j]? = some (Outcome.returned (serverAt i)) ∧
        (getServerCalls false (fuel + 1) M initState)[j + 1]? =
          some (Outcome.returned (serverAt ((i + 1) % servers.length)))) ∧
      (∀ b ∈ servers,
        (getServerCalls false (fuel + 1) M initState).count (Outcome.returned b) = M / servers.length ∨
        (getServerCalls false (fuel + 1) M initState).count (Outcome.returned b) =
          (M + servers.length - 1) / servers.length) := by
  have hlen : servers.length = 3 := rfl
  have hcalls : getServerCalls false (fuel + 1) M initState =
      (List.range M).map (fun j => Outcome.returned (serverAt (j + 1))) := by
    have h := getServerCalls_all_healthy fuel M initState (by decide) (fun _ _ => rfl)
      (by show 0 + M < 4294967296; omega)
    rw [h]
    apply List.map_congr_left
    intro j _
    show Outcome.returned (serverAt (0 + j + 1)) = Outcome.returned (serverAt (j + 1))
    rw [Nat.zero_add]
  rw [hcalls, hlen]
  refine ⟨rfl, ?_, ?_⟩
  · intro j hj
    refine ⟨(j + 1) % 3, Nat.mod_lt _ (by decide), ?_, ?_⟩
    · rw [List.getElem?_map, List.getElem?_range (by omega), serverAt_mod]
      rfl
    · rw [List.getElem?_map, List.getElem?_range hj]
      have e : serverAt (j + 1 + 1) = serverAt (((j + 1) % 3 + 1) % 3) :=
        serverAt_congr _ _ (by omega)
      rw [← e]
      rfl
  · intro b hb
    rcases (mem_servers_iff b).mp hb with h | h | h <;> subst h
    · rw [count_slot 0 M (by decide)]
      left; omega
    · rw [count_slot 1 M (by decide)]
      right; omega
    · rw [count_slot 2 M (by decide)]
      omega

/-- Instance of C3: seven calls from the initial state. -/
theorem C3_round_robin_fair_witness :
    getServerCalls false 1 7 initState =
      [Outcome.returned "http://localhost:8081", Outcome.returned "http://localhost:8082",
        Outcome.returned "http://localhost:8080", Outcome.returned "http://localhost:8081",
        Outcome.returned "http://localhost:8082", Outcome.returned "http://localhost:8080",
        Outcome.returned "http://localhost:8081"] :=
  (C3_round_robin_fair 7 (by decide) 0).1

/-- C8, as stated, fails at the cursor value `2^32 - 2`: with all three
backends healthy the first call increments the cursor to `2^32 - 1`, a
multiple of three, and returns `servers[0]`; the second wraps the cursor to
`0` and returns `servers[0]` again, not `servers[1]`. -/
theorem C8_counterexample :
    (allUp 4294967294).counter < 4294967296 ∧ healthyCount (allUp 4294967294) = 3 ∧
      (allUp 4294967294).numHealthyServers = 3 ∧
      getServerCalls false 1 2 (allUp 4294967294) =
        [Outcome.returned (serverAt 0), Outcome.returned (serverAt 0)] ∧
      serverAt 0 ≠ serverAt ((0 + 1) % servers.length) := by
  refine ⟨by decide, by decide, rfl, by decide, by decide⟩

theorem two_slots (c : Nat) (hc : c < 4294967296) (hne : c ≠ 4294967294) :
    ((c + 2) % 4294967296) % 3 = (((c + 1) % 4294967296) % 3 + 1) % 3 := by
  rcases Nat.lt_or_ge (c + 2) 4294967296 with h | h
  · have e1 : (c + 1) % 4294967296 = c + 1 := Nat.mod_eq_of_lt (by omega)
    have e2 : (c + 2) % 4294967296 = c + 2 := Nat.mod_eq_of_lt h
    rw [e1, e2]
    omega
  · have e : c = 4294967295 := by omega
    subst e
    decide

/-- C8, amended: with all three backends healthy, for every cursor value `c`
in `[0, 2^32)` other than `2^32 - 2`, the wrap from `c = 2^32 - 1` included,
two consecutive calls of `getServer` (made holding no lock, as at line 95)
starting at `c` return `servers[i]` and
then `servers[(i + 1) mod 3]`, where `i` is the slot of the incremented
cursor. -/
theorem C8_cyclic_order_except_before_wrap (s : State)
    (hall : ∀ b ∈ servers, s.unhealthyServers b = false) (h3 : s.numHealthyServers = 3)
    (hc : s.counter < 4294967296) (hne : s.counter ≠ 4294967294) (fuel : Nat) :
    getServerCalls false (fuel + 1) 2 s =
      [Outcome.returned (serverAt (addUint32 s.counter 1 % servers.length)),
        Outcome.returned
          (serverAt ((addUint32 s.counter 1 % servers.length + 1) % servers.length))] := by
  have hlen : servers.length = 3 := rfl
  have h0 : s.numHealthyServers ≠ 0 := by rw [h3]; decide
  have g1 := getServer_all_healthy s h0 hall fuel
  have g2 := getServer_all_healthy { s with counter := addUint32 s.counter 1 } h0 hall fuel
  simp only [getServerCalls, g1, g2, hlen, serverAt_mod]
  have e : serverAt (addUint32 (addUint32 s.counter 1) 1) =
      serverAt (addUint32 s.counter 1 % 3 + 1) := by
    apply serverAt_congr
    rw [addUint32_one s.counter, addUint32_succ s.counter 1]
    exact two_slots s.counter hc hne
  rw [e]

/-- Instance of C8 (amended): the wrap itself, cursor at `2^32 - 1`. -/
theorem C8_cyclic_order_except_before_wrap_witness :
    getServerCalls false 1 2 (allUp 4294967295) =
      [Outcome.returned (serverAt (addUint32 (allUp 4294967295).counter 1 % servers.length)),
        Outcome.returned (serverAt
          ((addUint32 (allUp 4294967295).counter 1 % servers.length + 1) % servers.length))] :=
  C8_cyclic_order_except_before_wrap (allUp 4294967295) (fun _ _ => rfl) rfl (by decide)
    (by decide) 0

/-! ## Health registry -/

theorem mapSet_other (m : String → Bool) (k : String) (v : Bool) (x : String) (h : x ≠ k) :
    mapSet m k v x = m x := by
  simp [mapSet, h]

/-- C6: the two registry transitions of the health check. Marking unhealthy
sets the flag of `b` and decrements the healthy counter (as an `int32`) when
`b` was not flagged, and changes nothing otherwise; marking healthy clears
the flag and increments the counter when `b` was flagged, and changes nothing
otherwise; applying either transition twice gives the same state as applying
it once. Short of the `int32` bounds the decrement and increment are the
plain `- 1` and `+ 1`. -/
theorem C6_registry_transitions_idempotent (s : State) (b : String) :
    (s.unhealthyServers b = false →
      (markUnhealthy b s).unhealthyServers = mapSet s.unhealthyServers b true ∧
      (markUnhealthy b s).unhealthyServers b = true ∧
      (markUnhealthy b s).numHealthyServers = addInt32 s.numHealthyServers (-1) ∧
      (isInt32 s.numHealthyServers → -2147483648 < s.numHealthyServers →
        (markUnhealthy b s).numHealthyServers = s.numHealthyServers - 1)) ∧
    (s.unhealthyServers b = true → markUnhealthy b s = s) ∧
    (s.unhealthyServers b = true →
      (markHealthy b s).unhealthyServers = mapSet s.unhealthyServers b false ∧
      (markHealthy b s).unhealthyServers b = false ∧
      (markHealthy b s).numHealthyServers = addInt32 s.numHealthyServers 1 ∧
      (isInt32 s.numHealthyServers → s.numHealthyServers < 2147483647 →
        (markHealthy b s).numHealthyServers = s.numHealthyServers + 1)) ∧
    (s.unhealthyServers b = false → markHealthy b s = s) ∧
    markUnhealthy b (markUnhealthy b s) = markUnhealthy b s ∧
    markHealthy b (markHealthy b s) = markHealthy b s := by
  refine ⟨?_, ?_, ?_, ?_, ?_, ?_⟩
  · intro h
    refine ⟨by simp [markUnhealthy, h], by simp [markUnhealthy, h, mapSet],
      by simp [markUnhealthy, h], ?_⟩
    intro hr hmin
    simp only [markUnhealthy, h, Bool.not_false, if_true]
    unfold isInt32 at hr
    unfold addInt32
    omega
  · intro h
    simp [markUnhealthy, h]
  · intro h
    refine ⟨by simp [markHealthy, h], by simp [markHealthy, h, mapSet],
      by simp [markHealthy, h], ?_⟩
    intro hr hmax
    simp only [markHealthy, h, if_true]
    unfold isInt32 at hr
    unfold addInt32
    omega
  · intro h
    simp [markHealthy, h]
  · rcases Bool.eq_false_or_eq_true (s.unhealthyServers b) with h | h
    · simp [markUnhealthy, h]
    · simp [markUnhealthy, h, mapSet]
  · rcases Bool.eq_false_or_eq_true (s.unhealthyServers b) with h | h
    · simp [markHealthy, h, mapSet]
    · simp [markHealthy, h]

theorem flag_after_probe (s : State) (b : String) (r : ProbeResult) :
    (healthCheckStep b r s).unhealthyServers b = probeFailed r := by
  unfold healthCheckStep
  rcases Bool.eq_false_or_eq_true (probeFailed r) with hp | hp <;>
    rcases Bool.eq_false_or_eq_true (s.unhealthyServers b) with h | h <;>
    simp [hp, markUnhealthy, markHealthy, h, mapSet]

/-- C9: after one health-probe step for backend `b`, from any registry
state, the flag of `b` is clear exactly when the probe had no transport
error and its status code was `200`, and set otherwise; the flag of every
other backend is as before. -/
theorem C9_probe_step_sets_flag (s : State) (b : String) (r : ProbeResult) :
    ((healthCheckStep b r s).unhealthyServers b = false ↔ r = ProbeResult.response 200) ∧
    ((healthCheckStep b r s).unhealthyServers b = true ↔ r ≠ ProbeResult.response 200) ∧
    (∀ b1, b1 ≠ b → (healthCheckStep b r s).unhealthyServers b1 = s.unhealthyServers b1) := by
  have hflag := flag_after_probe s b r
  have hp : probeFailed r = false ↔ r = ProbeResult.response 200 := by
    cases r with
    | transportError resp => simp [probeFailed]
    | response statusCode => simp [probeFailed]
  refine ⟨by rw [hflag]; exact hp, ?_, ?_⟩
  · rw [hflag, Ne, ← hp]
    simp
  · intro b1 hne
    unfold healthCheckStep
    rcases Bool.eq_false_or_eq_true (probeFailed r) with hp | hp <;>
      rcases Bool.eq_false_or_eq_true (s.unhealthyServers b) with h | h <;>
      simp [hp, markUnhealthy, markHealthy, h, mapSet, hne]

theorem consistent_iff (s : State) :
    Consistent s ↔
      s.numHealthyServers =
        (((if s.unhealthyServers (serverAt 0) then 0 else 1) +
          (if s.unhealthyServers (serverAt 1) then 0 else 1) +
          (if s.unhealthyServers (serverAt 2) then 0 else 1) : Nat) : Int) := by
  unfold Consistent
  rw [healthyCount_eq]

theorem mapSet_serverAt (m : String → Bool) (j k : Nat) (v : Bool) :
    mapSet m (serverAt k) v (serverAt j) = if j % 3 = k % 3 then v else m (serverAt j) := by
  simp only [mapSet, serverAt_eq_iff]

/-- One probe of a configured backend keeps the healthy counter equal to the
number of unflagged backends. -/
theorem consistent_healthCheckStep (s : State) (hc : Consistent s) (k : Nat) (hk : k < 3)
    (r : ProbeResult) : Consistent (healthCheckStep (serverAt k) r s) := by
  rw [consistent_iff] at hc ⊢
  have hk3 : k = 0 ∨ k = 1 ∨ k = 2 := by omega
  unfold healthCheckStep markUnhealthy markHealthy
  rcases hk3 with h | h | h <;> subst h <;>
    rcases Bool.eq_false_or_eq_true (probeFailed r) with hp | hp <;>
    rcases Bool.eq_false_or_eq_true (s.unhealthyServers (serverAt 0)) with f0 | f0 <;>
    rcases Bool.eq_false_or_eq_true (s.unhealthyServers (serverAt 1)) with f1 | f1 <;>
    rcases Bool.eq_false_or_eq_true (s.unhealthyServers (serverAt 2)) with f2 | f2 <;>
    simp [hp, f0, f1, f2, mapSet_serverAt, addInt32] at hc ⊢ <;>
    simp [hc]

theorem consistent_step (s : State) (hc : Consistent s) (e : Event) : Consistent (step s e) := by
  cases e with
  | probe i r => exact consistent_healthCheckStep s hc i.val i.isLt r
  | call holdsRLock fuel =>
    have h := getServer_registry_any holdsRLock fuel s
    unfold Consistent healthyCount at hc ⊢
    show (getServer holdsRLock fuel s).2.numHealthyServers = _
    rw [h.2, hc]
    simp only [step, h.1]

/-- C4: in every state reached from the initial state (empty map, healthy
counter `3`) by a finite sequence of health-probe steps, each with an
arbitrary outcome for an arbitrary configured backend, and calls of
`getServer`, the healthy counter equals the number of configured backends
whose flag is false or absent. -/
theorem C4_counter_matches_flags (es : List Event) :
    (run initState es).numHealthyServers = ((healthyCount (run initState es) : Nat) : Int) := by
  have h : ∀ (es : List Event) (s : State), Consistent s → Consistent (run s es) := by
    intro es
    induction es with
    | nil => intro s hs; exact hs
    | cons e es ih => intro s hs; exact ih (step s e) (consistent_step s hs e)
  exact h es initState (by decide)

/-- The body of the loop of lines 97-99 calls `getServer` under the read
lock taken at line 96, so once it runs it blocks at `Lock()`. -/
theorem reselect_flagged (fuel k : Nat) (server : String) (s : State)
    (h : s.unhealthyServers server = true) :
    reselect (fuel + 1) (k + 1) server s = (Outcome.blocked, s) := by
  simp [reselect, h, getServer_blocked]

/-- C7, as stated, fails: from the initial state a backend is selected, the
forwarded request completes without an I/O error with status `404` and body
`"not found"`, and the handler writes nothing to the caller; the body only
appears in the log. -/
theorem C7_counterexample :
    (getServer false 4 initState).1 = Outcome.returned "http://localhost:8081" ∧
      getServerResponse (fun _ => GetResult.ok 404 "not found") "http://localhost:8081" =
        Except.ok "not found" ∧
      (handler 4 (fun _ => GetResult.ok 404 "not found") "10.0.0.1:5000" initState).written =
        none ∧
      (handler 4 (fun _ => GetResult.ok 404 "not found") "10.0.0.1:5000" initState).written ≠
        some ⟨404, "not found"⟩ := by
  refine ⟨by decide, rfl, by decide, by decide⟩

/-- C7, amended: for every inbound request for which `getServer` (line 95)
returns a backend and the GET sent to that backend completes without an I/O
error, with status code `st` and body `body`, the handler writes nothing to
the original caller, neither `st` nor `body`: it logs the body and ends;
the status code is not part of what `getServerResponse` returns. -/
theorem C7_handler_only_logs_response (fuel : Nat) (httpGet : String → GetResult)
    (remoteAddr : String) (s s1 : State) (server : String) (st : Nat) (body : String)
    (hsel : getServer false fuel s = (Outcome.returned server, s1))
    (hget : httpGet server = GetResult.ok st body) :
    handler fuel httpGet remoteAddr s =
        HandlerResult.finished none
          ["Request received from IP: " ++ remoteAddr ++ "\n",
            "Forwarding request to " ++ server ++ "\n",
            "Response from server: " ++ body ++ "\n"] s1 ∧
      (handler fuel httpGet remoteAddr s).written = none ∧
      getServerResponse httpGet server = Except.ok body := by
  have hflag : s1.unhealthyServers server = false := by
    have h1 := getServer_returned fuel s server (by rw [hsel])
    have h2 := (getServer_registry fuel s).1
    rw [hsel] at h2
    simp only at h2
    rw [h2]
    exact h1.2
  have hre : reselect fuel (fuel + 1) server s1 = (Outcome.returned server, s1) := by
    simp [reselect, hflag]
  have hresp : getServerResponse httpGet server = Except.ok body := by
    simp [getServerResponse, hget]
  have hh : handler fuel httpGet remoteAddr s =
      HandlerResult.finished none
        ["Request received from IP: " ++ remoteAddr ++ "\n",
          "Forwarding request to " ++ server ++ "\n",
          "Response from server: " ++ body ++ "\n"] s1 := by
    simp only [handler, hsel, hre, hresp]
  exact ⟨hh, by rw [hh]; rfl, hresp⟩

/-- Instance of C7 (amended): the first request after start-up, answered by
the backend with status `200` and body `"hello"`. -/
theorem C7_handler_only_logs_response_witness :
    handler 1 (fun _ => GetResult.ok 200 "hello") "10.0.0.1:5000" initState =
        HandlerResult.finished none
          ["Request received from IP: " ++ "10.0.0.1:5000" ++ "\n",
            "Forwarding request to " ++ "http://localhost:8081" ++ "\n",
            "Response from server: " ++ "hello" ++ "\n"]
          { initState with counter := 1 } ∧
      (handler 1 (fun _ => GetResult.ok 200 "hello") "10.0.0.1:5000" initState).written =
        none ∧
      getServerResponse (fun _ => GetResult.ok 200 "hello") "http://localhost:8081" =
        Except.ok "hello" :=
  C7_handler_only_logs_response 1 (fun _ => GetResult.ok 200 "hello") "10.0.0.1:5000"
    initState { initState with counter := 1 } "http://localhost:8081" 200 "hello" rfl rfl

end LoadBalancer
